import Mathlib

/-!
Verification development for the `moosic` disk cache (`moosic/cache.py`) and
the caching portion of its streaming pipeline (`moosic/moosic.py`).

The Python code is shallowly embedded: the filesystem is an association list
from paths to file data (content plus timestamps), the in-memory index
(`LRUDiskCache._files`) is an association list from paths to entry metadata,
and every cache operation is a pure function on an explicit `CacheState`.
Python exceptions are modelled with `Except`; the distinct raw exception
kinds (`KeyError` from a dict lookup, `FileNotFoundError`/`IOError` from the
filesystem) are separate constructors of `CacheError`, alongside the typed
`notFound` error that the specification calls for.
-/

set_option maxRecDepth 100000

namespace Moosic

/-- Embedding of `convert_size`'s digit-string accumulation: the numeric value
of a list of decimal digit characters, as `int()` computes it. -/
def digitsToNat : List Char → Nat → Nat
  | [], acc => acc
  | c :: rest, acc => digitsToNat rest (acc * 10 + (c.toNat - '0'.toNat))

/-- Parse a nonempty all-digit character list, otherwise fail (the failing
branch of Python's `int()`). -/
def digitsOpt (l : List Char) : Option Nat :=
  if l ≠ [] ∧ l.all Char.isDigit then some (digitsToNat l 0) else none

/-- Embedding of Python's `int(s)` on the inputs `convert_size` feeds it: an
optional sign followed by a nonempty run of decimal digits; anything else
raises `ValueError`, modelled as `none`. -/
def pyInt (s : String) : Option Int :=
  match s.data with
  | [] => none
  | c :: rest =>
    if c = '-' then (digitsOpt rest).map (fun n => -(n : Int))
    else if c = '+' then (digitsOpt rest).map (fun n => (n : Int))
    else (digitsOpt (c :: rest)).map (fun n => (n : Int))

/-- Embedding of `convert_size` (`cache.py` lines 6-18).  `sz[-1]` on the
empty string raises `IndexError`, modelled as `none`; a non-digit last
character is stripped and treated as a unit suffix, with only `G`, `M`, `K`
recognised and any other suffix silently ignored. -/
def convert_size (sz : String) : Option Int :=
  match sz.data.getLast? with
  | none => none
  | some ch =>
    if ¬ ch.isDigit then
      match pyInt (String.mk sz.data.dropLast) with
      | none => none
      | some n =>
        if ch = 'G' then some (n * 1024 * 1024 * 1024)
        else if ch = 'M' then some (n * 1024 * 1024)
        else if ch = 'K' then some (n * 1024)
        else some n
    else pyInt sz

/-- Metadata of one file on the modelled disk: its byte content and the
`st_atime` / `st_mtime` timestamps that `os.stat` reports. -/
structure FileData where
  content : List Nat
  atime : Nat
  mtime : Nat
  deriving DecidableEq, Repr

/-- One value of `LRUDiskCache._files` (`cache.py` lines 50-54): the size,
last-access time and creation time recorded by `_scan_file`. -/
structure CacheEntry where
  size : Nat
  last_access : Nat
  created : Nat
  deriving DecidableEq, Repr

/-- Lookup in a Python dict modelled as an association list. -/
def dictGet {α : Type} : List (String × α) → String → Option α
  | [], _ => none
  | (k', v) :: rest, k => if k' = k then some v else dictGet rest k

/-- Python dict assignment `d[k] = v`: replace the binding in place when the
key is present, append it otherwise. -/
def dictInsert {α : Type} : List (String × α) → String → α → List (String × α)
  | [], k, v => [(k, v)]
  | (k', v') :: rest, k, v =>
    if k' = k then (k, v) :: rest else (k', v') :: dictInsert rest k v

/-- Python `del d[k]` (and `os.remove` on the modelled disk): drop every
binding for the key. -/
def dictErase {α : Type} : List (String × α) → String → List (String × α)
  | [], _ => []
  | (k', v) :: rest, k =>
    if k' = k then dictErase rest k else (k', v) :: dictErase rest k

/-- The full state of one `LRUDiskCache` together with the modelled disk:
the cache directory path, the parsed `max_size` budget, the `_files` index,
the `_total_size` counter, and the path → file-data map standing for the
filesystem. -/
structure CacheState where
  path : String
  max_size : Int
  files : List (String × CacheEntry)
  total_size : Int
  disk : List (String × FileData)
  deriving DecidableEq, Repr

/-- The raw exceptions the cache code can raise, plus the typed `NotFound`
error that the specification's error design names (the Python source never
constructs it). -/
inductive CacheError where
  | notFound
  | keyError
  | fileNotFound
  deriving DecidableEq, Repr

/-- Embedding of `_key_path`: the digest of the key joined onto the cache
directory.  `hashlib.md5(key).hexdigest()` is modelled as an injective
encoding of the key (the spec assumes digests collide only for aliased
keys), so the digest is taken to be the key itself. -/
def key_path (st : CacheState) (key : String) : String :=
  st.path ++ "/" ++ key

/-- Sum of the sizes of all entries tracked in an index. -/
def sumSizes (files : List (String × CacheEntry)) : Int :=
  files.foldl (fun acc e => acc + (e.2.size : Int)) 0

/-- Embedding of `_scan_file` (`cache.py` lines 47-55): stat the file, add
its size to `_total_size`, and record/overwrite its index entry.  The `none`
branch (missing file, where `os.stat` would raise) is unreachable from the
call sites, which always stat a file they just created. -/
def scan_file (st : CacheState) (path : String) : CacheState :=
  match dictGet st.disk path with
  | some fd =>
    { st with
      total_size := st.total_size + (fd.content.length : Int)
      files := dictInsert st.files path ⟨fd.content.length, fd.atime, fd.mtime⟩ }
  | none => st

/-- Insertion step for `sorted(self._files.items(), key=lambda i: i[1]['created'])`. -/
def insertByCreated (x : String × CacheEntry) :
    List (String × CacheEntry) → List (String × CacheEntry)
  | [] => [x]
  | y :: rest =>
    if x.2.created ≤ y.2.created then x :: y :: rest else y :: insertByCreated x rest

/-- The index entries sorted by ascending creation time, as `_purge_bytes`
orders them. -/
def sortByCreated : List (String × CacheEntry) → List (String × CacheEntry)
  | [] => []
  | x :: rest => insertByCreated x (sortByCreated rest)

/-- The loop of `_purge_bytes` (`cache.py` lines 72-77): walk the sorted
entries, `os.remove` each file from disk (the index and `_total_size` are
left untouched, exactly as in the source), decrement the remaining amount by
the entry's recorded size, and stop once it is `<= 0`. -/
def purgeGo : CacheState → List (String × CacheEntry) → Int → CacheState
  | st, [], _ => st
  | st, (p, obj) :: rest, amt =>
    let st' := { st with disk := dictErase st.disk p }
    let amt' := amt - (obj.size : Int)
    if amt' ≤ 0 then st' else purgeGo st' rest amt'

/-- Embedding of `_purge_bytes` (`cache.py` lines 69-77). -/
def purge_bytes (st : CacheState) (amount : Int) : CacheState :=
  purgeGo st (sortByCreated st.files) amount

/-- Embedding of `_check` (`cache.py` lines 65-67). -/
def check (st : CacheState) : CacheState :=
  if st.total_size > st.max_size then
    purge_bytes st (st.total_size - st.max_size)
  else st

/-- Embedding of `delete` (`cache.py` lines 83-89): the index lookup raises
`KeyError` on an absent key; otherwise the entry is dropped, the file
removed (`os.remove` raises `FileNotFoundError` when the file is already
gone from disk), and `_total_size` decremented by the recorded size. -/
def delete (st : CacheState) (key : String) : Except CacheError CacheState :=
  let p := key_path st key
  match dictGet st.files p with
  | none => .error .keyError
  | some obj =>
    match dictGet st.disk p with
    | none => .error .fileNotFound
    | some _ =>
      .ok { st with
            files := dictErase st.files p
            disk := dictErase st.disk p
            total_size := st.total_size - (obj.size : Int) }

/-- Embedding of `put` followed by writing `content` and releasing the
handle (`LRUDiskCacheFile`, `cache.py` lines 21-33): `open(path, 'w')`
creates/truncates the file, the bytes are written, and `close` runs
`_scan_file` then `_check`.  `now` is the wall-clock time stamped onto the
new file. -/
def put_release (st : CacheState) (key : String) (content : List Nat)
    (now : Nat) : CacheState :=
  let p := key_path st key
  let st1 := { st with disk := dictInsert st.disk p ⟨content, now, now⟩ }
  check (scan_file st1 p)

/-- Embedding of `put_from_path` (`cache.py` lines 94-98): `shutil.copy`
raises when the source file is missing; otherwise the content is copied to
the digest path (the copy's timestamps are the copy time `now`), then
`_scan_file` and `_check` run. -/
def put_from_path (st : CacheState) (key src : String) (now : Nat) :
    Except CacheError CacheState :=
  match dictGet st.disk src with
  | none => .error .fileNotFound
  | some fd =>
    let p := key_path st key
    let st1 := { st with disk := dictInsert st.disk p ⟨fd.content, now, now⟩ }
    .ok (check (scan_file st1 p))

/-- Embedding of `get` (`cache.py` lines 100-101): open the digest path for
reading, without consulting the index; a missing file surfaces the raw
`FileNotFoundError`. -/
def get (st : CacheState) (key : String) : Except CacheError (List Nat) :=
  match dictGet st.disk (key_path st key) with
  | none => .error .fileNotFound
  | some fd => .ok fd.content

/-- Embedding of `has` (`cache.py` lines 103-104): a pure index membership
test. -/
def has (st : CacheState) (key : String) : Bool :=
  (dictGet st.files (key_path st key)).isSome

/-! ### Association-list dictionary lemmas -/

theorem dictGet_insert_self {α : Type} (d : List (String × α)) (k : String) (v : α) :
    dictGet (dictInsert d k v) k = some v := by
  induction d with
  | nil => simp [dictInsert, dictGet]
  | cons hd tl ih =>
    obtain ⟨k', v'⟩ := hd
    by_cases h : k' = k
    · simp [dictInsert, h, dictGet]
    · simp [dictInsert, h, dictGet, ih]

theorem dictGet_insert_ne {α : Type} (d : List (String × α)) (k k' : String) (v : α)
    (h : k ≠ k') : dictGet (dictInsert d k v) k' = dictGet d k' := by
  induction d with
  | nil => simp [dictInsert, dictGet, h]
  | cons hd tl ih =>
    obtain ⟨k₀, v₀⟩ := hd
    by_cases h₀ : k₀ = k
    · simp [dictInsert, h₀, dictGet, h]
    · simp only [dictInsert, h₀, if_false, dictGet]
      by_cases h₁ : k₀ = k'
      · simp [h₁]
      · simp [h₁, ih]

theorem dictGet_erase_self {α : Type} (d : List (String × α)) (k : String) :
    dictGet (dictErase d k) k = none := by
  induction d with
  | nil => simp [dictErase, dictGet]
  | cons hd tl ih =>
    obtain ⟨k', v'⟩ := hd
    by_cases h : k' = k
    · simp [dictErase, h, ih]
    · simp [dictErase, h, dictGet, ih]

theorem dictGet_erase_ne {α : Type} (d : List (String × α)) (k k' : String)
    (h : k ≠ k') : dictGet (dictErase d k) k' = dictGet d k' := by
  induction d with
  | nil => simp [dictErase]
  | cons hd tl ih =>
    obtain ⟨k₀, v₀⟩ := hd
    by_cases h₀ : k₀ = k
    · subst h₀
      simp [dictErase, dictGet, h, ih]
    · simp only [dictErase, h₀, if_false, dictGet]
      by_cases h₁ : k₀ = k'
      · simp [h₁]
      · simp [h₁, ih]

/-! ### SizeSpec parser lemmas -/

theorem str_data_append (a b : String) : (a ++ b).data = a.data ++ b.data := rfl

theorem pyInt_digits (d : String) (hne : d.data ≠ [])
    (hdig : d.data.all Char.isDigit = true) :
    pyInt d = some ((digitsToNat d.data 0 : Nat) : Int) := by
  rcases hd : d.data with _ | ⟨c, rest⟩
  · exact absurd hd hne
  · have hc : c.isDigit = true := by
      rw [hd, List.all_cons, Bool.and_eq_true] at hdig
      exact hdig.1
    have hcm : c ≠ '-' := by rintro rfl; exact absurd hc (by decide)
    have hcp : c ≠ '+' := by rintro rfl; exact absurd hc (by decide)
    rw [hd] at hdig
    simp [pyInt, hd, hcm, hcp, digitsOpt, hdig]

/-- The shape `convert_size` takes on any input ending in a non-digit
character: the suffix is stripped, the prefix goes through `int()`, and only
`G`, `M`, `K` scale the result. -/
theorem convert_size_append_char (d : String) (c : Char) (hc : c.isDigit = false) :
    convert_size (d ++ String.mk [c]) =
      (pyInt d).map (fun n =>
        if c = 'G' then n * 1024 * 1024 * 1024
        else if c = 'M' then n * 1024 * 1024
        else if c = 'K' then n * 1024
        else n) := by
  have hdata : (d ++ String.mk [c]).data = d.data ++ [c] := str_data_append d (String.mk [c])
  have hlast : (d ++ String.mk [c]).data.getLast? = some c := by
    rw [hdata]; exact List.getLast?_concat _
  have hdrop : (d ++ String.mk [c]).data.dropLast = d.data := by
    rw [hdata]; exact List.dropLast_concat
  have heta : String.mk d.data = d := rfl
  rw [convert_size, hlast]
  simp only [hc, Bool.false_eq_true, not_false_iff, if_true, hdrop, heta]
  cases hp : pyInt d
  · rfl
  · simp only [Option.map_some']
    split_ifs <;> rfl

/-! ### The Write-Through Session -/

/-- Modelled from the spec: the Write-Through Session machinery (the staging
tempfile and the completion-callback plumbing around
`MusicQueuePlayable._get_next_playable`, `moosic.py` lines 126-137) lives in
the external streaming framework and is not part of the repository's own
sources.  Per the spec, a uniquely-named StagingBuffer is opened, every chunk
the consumer takes is mirrored into it, and only full uninterrupted
consumption (`consumed = chunks.length`, the end-of-stream signal) triggers
`put_from_path key stagingPath`; in every case the StagingBuffer is deleted
at teardown, and on early stop the Disk Cache is never called. -/
def write_through_session (st : CacheState) (key staging : String)
    (chunks : List (List Nat)) (consumed : Nat) (now : Nat) :
    Except CacheError CacheState :=
  let staged := (chunks.take consumed).flatten
  let st1 := { st with disk := dictInsert st.disk staging ⟨staged, now, now⟩ }
  if consumed = chunks.length then
    match put_from_path st1 key staging now with
    | .error e => .error e
    | .ok st2 => .ok { st2 with disk := dictErase st2.disk staging }
  else
    .ok { st1 with disk := dictErase st1.disk staging }

/-! ### Concrete scenario states -/

deriving instance DecidableEq for Except

/-- A freshly constructed cache over an empty directory with a 100-byte
budget. -/
def emptyCache : CacheState :=
  { path := "cache", max_size := 100, files := [], total_size := 0, disk := [] }

/-- An empty cache with an effectively unbounded budget, alongside two
source files of 10 and 4 bytes outside the cache directory. -/
def stOverwrite : CacheState :=
  { path := "cache", max_size := 1000000, files := [], total_size := 0,
    disk := [("src10", ⟨List.replicate 10 0, 0, 0⟩), ("src4", ⟨List.replicate 4 0, 0, 0⟩)] }

/-- `put_from_path "k" "src10"` then `put_from_path "k" "src4"` on
`stOverwrite`: the same key written twice. -/
def runOverwrite : Except CacheError CacheState :=
  (put_from_path stOverwrite "k" "src10" 1).bind fun s => put_from_path s "k" "src4" 2

/-- An empty cache with a 100-byte budget alongside a 150-byte source file:
a single `put_from_path` must trigger eviction. -/
def stOversize : CacheState :=
  { path := "cache", max_size := 100, files := [], total_size := 0,
    disk := [("big", ⟨List.replicate 150 0, 0, 0⟩)] }

/-- The oversized `put_from_path` on `stOversize`. -/
def runOversize : Except CacheError CacheState :=
  put_from_path stOversize "k" "big" 1

/-- Two 80-byte direct writes into a 100-byte cache: the second release
pushes `_total_size` to 160 and triggers eviction of the older entry. -/
def runEvict : CacheState :=
  put_release (put_release emptyCache "a" (List.replicate 80 1) 1) "b" (List.replicate 80 2) 2

/-- An empty cache whose budget (10 bytes) is smaller than a 20-byte
payload. -/
def stTiny : CacheState :=
  { path := "cache", max_size := 10, files := [], total_size := 0, disk := [] }

/-- An empty cache with an unbounded budget, alongside source files of 10
and 3 bytes. -/
def stDelta : CacheState :=
  { path := "cache", max_size := 1000000, files := [], total_size := 0,
    disk := [("old", ⟨List.replicate 10 0, 0, 0⟩), ("new", ⟨List.replicate 3 0, 0, 0⟩)] }

/-- `put_from_path "k" "old"` then `put_from_path "k" "new"` on `stDelta`:
an overwrite shrinking the entry from 10 to 3 bytes. -/
def runDelta : Except CacheError CacheState :=
  (put_from_path stDelta "k" "old" 1).bind fun s => put_from_path s "k" "new" 2

/-! ### Claim theorems -/

/-- C1: the claim says that after every `put`/`putFromPath`/`delete`
(evictions included) `totalSize` equals the sum of the sizes of the entries
tracked in the index.  The code violates it: `put_from_path` on a key that
is already indexed runs `_scan_file`, which adds the new file's full size to
`_total_size` while merely replacing the index entry, so after overwriting a
10-byte entry with a 4-byte file the counter reads 14 while the index sums
to 4. -/
theorem c1_total_size_counter_diverges :
    runOverwrite.map (fun s => (s.total_size, sumSizes s.files)) = .ok (14, 4) ∧
      (14 : Int) ≠ 4 := by
  constructor
  · decide
  · decide

/-- C2: the claim says `totalSize <= maxSize` holds once the eviction check
triggered by a mutating operation completes.  The code violates it:
`_purge_bytes` deletes files from disk but never decrements `_total_size`,
so after a 150-byte `put_from_path` into a 100-byte cache the eviction pass
completes (the file is gone from disk) with the counter still at 150. -/
theorem c2_budget_not_restored :
    runOversize.map (fun s => (s.total_size, s.max_size)) = .ok (150, 100) ∧
      runOversize.map (fun s => dictGet s.disk (key_path s "k")) = .ok none ∧
      ¬ ((150 : Int) ≤ 100) := by
  refine ⟨by decide, by decide, by decide⟩

/-- C5: the claim says `has key` is false immediately after the key's entry
is evicted.  The code violates it: `_purge_bytes` removes the file from
disk without touching `_files`, so after the second 80-byte write into a
100-byte cache evicts key `a`, `has "a"` still reports `true` even though
`a`'s file no longer exists on disk. -/
theorem c5_has_true_after_eviction :
    has runEvict "a" = true ∧
      dictGet runEvict.disk (key_path runEvict "a") = none ∧
      has runEvict "b" = true := by
  refine ⟨by decide, by decide, by decide⟩

/-- C7: the claim says overwriting an indexed entry of size `s_old` with a
source file of size `s_new` via `putFromPath` changes `totalSize` by
`s_new - s_old`.  The code adds the full `s_new` instead: overwriting a
10-byte entry with a 3-byte file moves the counter from 10 to 13, not to 3
(`10 + (3 - 10)`). -/
theorem c7_overwrite_adds_full_size :
    runDelta.map (fun s => s.total_size) = .ok 13 ∧
      runDelta.map (fun s => (dictGet s.files (key_path s "k")).map CacheEntry.size)
        = .ok (some 3) ∧
      (13 : Int) ≠ 10 + (3 - 10) := by
  refine ⟨by decide, by decide, by decide⟩

/-- C6 counterexample: the claim says `delete` and `get` on an absent key
fail with the typed `NotFound` error.  On the empty cache with key `"k"`
the code instead raises the raw `KeyError` from the index lookup (`delete`)
and the raw `FileNotFoundError` from `open` (`get`); neither is the typed
`notFound`. -/
theorem c6_absent_key_raw_errors :
    delete emptyCache "k" = .error .keyError ∧
      get emptyCache "k" = .error .fileNotFound ∧
      CacheError.keyError ≠ CacheError.notFound ∧
      CacheError.fileNotFound ≠ CacheError.notFound := by
  refine ⟨by decide, by decide, by decide, by decide⟩

/-- C6 amended: on any key whose digest path is neither in the index nor on
disk, `delete` fails with the raw `KeyError` from the dict lookup and `get`
fails with the raw filesystem `FileNotFoundError` — the code never surfaces
a typed `NotFound` error. -/
theorem c6_amended_absent_key (st : CacheState) (key : String)
    (hidx : dictGet st.files (key_path st key) = none)
    (hdisk : dictGet st.disk (key_path st key) = none) :
    delete st key = .error .keyError ∧ get st key = .error .fileNotFound := by
  constructor
  · simp [delete, hidx]
  · simp [get, hdisk]

/-- Witness for `c6_amended_absent_key` at the empty cache and key `"k"`. -/
theorem c6_amended_absent_key_witness :
    dictGet emptyCache.files (key_path emptyCache "k") = none ∧
      dictGet emptyCache.disk (key_path emptyCache "k") = none ∧
      (delete emptyCache "k" = .error .keyError ∧
        get emptyCache "k" = .error .fileNotFound) :=
  ⟨rfl, rfl, c6_amended_absent_key emptyCache "k" rfl rfl⟩

/-- C8 counterexample: the claim says `put(key)` writing `B` then `get(key)`
always yields `B`.  When the payload alone exceeds the budget the release
triggers an eviction that deletes the freshly written file itself: writing
20 bytes into a 10-byte cache makes the subsequent `get` raise the raw
missing-file error instead of returning the bytes. -/
theorem c8_roundtrip_fails_when_evicted :
    get (put_release stTiny "k" (List.replicate 20 7) 1) "k" = .error .fileNotFound ∧
      (Except.error CacheError.fileNotFound : Except CacheError (List Nat))
        ≠ .ok (List.replicate 20 7) := by
  refine ⟨by decide, by decide⟩

/-- C8 amended: the round-trip holds whenever registering the new entry
leaves `totalSize` within `maxSize`, so that the release triggers no
eviction: writing `B` through the `put` handle and releasing it, then
`get`, yields exactly `B`. -/
theorem c8_amended_roundtrip (st : CacheState) (key : String) (content : List Nat)
    (now : Nat) (h : st.total_size + (content.length : Int) ≤ st.max_size) :
    get (put_release st key content now) key = .ok content := by
  have hne : ¬ (st.total_size + (content.length : Int) > st.max_size) := not_lt.mpr h
  simp [put_release, scan_file, check, get, key_path, dictGet_insert_self, hne]

/-- Witness for `c8_amended_roundtrip`: a 3-byte write into the empty
100-byte cache. -/
theorem c8_amended_roundtrip_witness :
    emptyCache.total_size + (([5, 6, 7] : List Nat).length : Int) ≤ emptyCache.max_size ∧
      get (put_release emptyCache "k" [5, 6, 7] 1) "k" = .ok [5, 6, 7] :=
  ⟨by decide, c8_amended_roundtrip emptyCache "k" [5, 6, 7] 1 (by decide)⟩

/-- C3: eviction removes entries oldest-creation-first and stops as soon as
the freed bytes reach the excess.  For any cache whose index holds three
entries with creation times `t1 < t2 < t3`, all with files on disk, and any
positive excess that one oldest entry suffices to cover, `_purge_bytes`
deletes the `t1` entry's file and leaves the `t2` and `t3` entries' files
untouched. -/
theorem c3_purge_oldest_first (st : CacheState) (p1 p2 p3 : String)
    (e1 e2 e3 : CacheEntry) (amount : Int)
    (hf : st.files = [(p1, e1), (p2, e2), (p3, e3)])
    (h12 : e1.created < e2.created) (h23 : e2.created < e3.created)
    (hne2 : p1 ≠ p2) (hne3 : p1 ≠ p3)
    (_hdisk1 : (dictGet st.disk p1).isSome = true)
    (_hpos : 0 < amount) (hsuff : amount ≤ (e1.size : Int)) :
    dictGet (purge_bytes st amount).disk p1 = none ∧
      dictGet (purge_bytes st amount).disk p2 = dictGet st.disk p2 ∧
      dictGet (purge_bytes st amount).disk p3 = dictGet st.disk p3 := by
  have hsort : sortByCreated st.files = [(p1, e1), (p2, e2), (p3, e3)] := by
    rw [hf]
    simp [sortByCreated, insertByCreated, h12.le, h23.le]
  have hstop : amount - (e1.size : Int) ≤ 0 := sub_nonpos.mpr hsuff
  rw [purge_bytes, hsort]
  simp only [purgeGo, hstop, if_true, if_pos hstop]
  exact ⟨dictGet_erase_self _ _, dictGet_erase_ne _ _ _ hne2, dictGet_erase_ne _ _ _ hne3⟩

/-- A cache directory holding three 40-byte files created at times 1, 2, 3,
with a fully scanned index; the witness scenario for eviction ordering. -/
def stThree : CacheState :=
  { path := "cache", max_size := 100,
    files := [("cache/a", ⟨40, 1, 1⟩), ("cache/b", ⟨40, 2, 2⟩), ("cache/c", ⟨40, 3, 3⟩)],
    total_size := 120,
    disk := [("cache/a", ⟨List.replicate 40 0, 1, 1⟩),
             ("cache/b", ⟨List.replicate 40 0, 2, 2⟩),
             ("cache/c", ⟨List.replicate 40 0, 3, 3⟩)] }

/-- Witness for `c3_purge_oldest_first`: purging a 20-byte excess from
`stThree` removes only the oldest file. -/
theorem c3_purge_oldest_first_witness :
    stThree.files = [("cache/a", ⟨40, 1, 1⟩), ("cache/b", ⟨40, 2, 2⟩), ("cache/c", ⟨40, 3, 3⟩)] ∧
      (1 : Nat) < 2 ∧ (2 : Nat) < 3 ∧
      ("cache/a" : String) ≠ "cache/b" ∧ ("cache/a" : String) ≠ "cache/c" ∧
      (dictGet stThree.disk "cache/a").isSome = true ∧
      (0 : Int) < 20 ∧ (20 : Int) ≤ ((40 : Nat) : Int) ∧
      (dictGet (purge_bytes stThree 20).disk "cache/a" = none ∧
        dictGet (purge_bytes stThree 20).disk "cache/b" = dictGet stThree.disk "cache/b" ∧
        dictGet (purge_bytes stThree 20).disk "cache/c" = dictGet stThree.disk "cache/c") :=
  ⟨rfl, by decide, by decide, by decide, by decide, by decide, by decide, by decide,
    c3_purge_oldest_first stThree "cache/a" "cache/b" "cache/c" ⟨40, 1, 1⟩ ⟨40, 2, 2⟩
      ⟨40, 3, 3⟩ 20 rfl (by decide) (by decide) (by decide) (by decide) (by decide)
      (by decide) (by decide)⟩

/-- C4: a Write-Through Session whose consumer stops before the end-of-stream
signal never commits: for any cache state in which the key is not yet
present, an early-stopped session (`consumed < chunks.length`) tears down to
a state where `has key` is false and the staging file is gone from disk,
`putFromPath` never having run. -/
theorem c4_early_stop_discards (st : CacheState) (key staging : String)
    (chunks : List (List Nat)) (consumed : Nat) (now : Nat)
    (hearly : consumed < chunks.length)
    (habsent : has st key = false) :
    ∃ st', write_through_session st key staging chunks consumed now = .ok st' ∧
      has st' key = false ∧ dictGet st'.disk staging = none := by
  have hst' :
      write_through_session st key staging chunks consumed now =
        .ok ({ st with disk := dictErase (dictInsert st.disk staging ⟨(chunks.take consumed).flatten, now, now⟩) staging }) := by
    simp [write_through_session, Nat.ne_of_lt hearly]
  exact ⟨_, hst', habsent, dictGet_erase_self _ _⟩

/-- Witness for `c4_early_stop_discards`: a two-chunk stream for key `"x"`
aborted after the first chunk, starting from the empty cache. -/
theorem c4_early_stop_discards_witness :
    (1 : Nat) < ([[1], [2]] : List (List Nat)).length ∧
      has emptyCache "x" = false ∧
      (∃ st', write_through_session emptyCache "x" "tmp/stage" [[1], [2]] 1 5 = .ok st' ∧
        has st' "x" = false ∧ dictGet st'.disk "tmp/stage" = none) :=
  ⟨by decide, by decide,
    c4_early_stop_discards emptyCache "x" "tmp/stage" [[1], [2]] 1 5 (by decide) (by decide)⟩

/-- Shared helper: `convert_size` on a string of digits returns the decimal
value of those digits (the `int(sz)` branch). -/
theorem convert_size_digits (d : String) (hne : d.data ≠ [])
    (hdig : d.data.all Char.isDigit = true) :
    convert_size d = some ((digitsToNat d.data 0 : Nat) : Int) := by
  have hpy := pyInt_digits d hne hdig
  have hlast : d.data.getLast? = some (d.data.getLast hne) :=
    List.getLast?_eq_getLast _ hne
  have hcd : (d.data.getLast hne).isDigit = true :=
    List.all_eq_true.mp hdig _ (List.getLast_mem hne)
  rw [convert_size, hlast]
  simp [hcd, hpy]

/-- C9: the SizeSpec parser scales a digit prefix by 1024, 1024², 1024³ for
the suffixes `K`, `M`, `G`, and parses a pure digit string as a plain byte
count; in particular `"2M"` parses to 2097152, `"100"` to 100, and `"3G"`
to 3221225472. -/
theorem c9_size_spec (d : String) (n : Nat)
    (hne : d.data ≠ []) (hdig : d.data.all Char.isDigit = true)
    (hval : digitsToNat d.data 0 = n) :
    convert_size (d ++ "K") = some ((n : Int) * 1024) ∧
      convert_size (d ++ "M") = some ((n : Int) * 1024 * 1024) ∧
      convert_size (d ++ "G") = some ((n : Int) * 1024 * 1024 * 1024) ∧
      convert_size d = some ((n : Int)) ∧
      convert_size "2M" = some 2097152 ∧
      convert_size "100" = some 100 ∧
      convert_size "3G" = some 3221225472 := by
  have hpy : pyInt d = some ((n : Nat) : Int) := by
    rw [← hval]; exact pyInt_digits d hne hdig
  refine ⟨?_, ?_, ?_, ?_, by decide, by decide, by decide⟩
  · rw [show ("K" : String) = String.mk ['K'] from rfl,
      convert_size_append_char d 'K' (by decide), hpy]
    rfl
  · rw [show ("M" : String) = String.mk ['M'] from rfl,
      convert_size_append_char d 'M' (by decide), hpy]
    rfl
  · rw [show ("G" : String) = String.mk ['G'] from rfl,
      convert_size_append_char d 'G' (by decide), hpy]
    rfl
  · rw [convert_size_digits d hne hdig, hval]

/-- Witness for `c9_size_spec` at the digit prefix `"2"`. -/
theorem c9_size_spec_witness :
    ("2" : String).data ≠ [] ∧ ("2" : String).data.all Char.isDigit = true ∧
      digitsToNat ("2" : String).data 0 = 2 ∧
      (convert_size ("2" ++ "K") = some ((2 : Nat) * 1024 : Int) ∧
        convert_size ("2" ++ "M") = some ((2 : Nat) * 1024 * 1024 : Int) ∧
        convert_size ("2" ++ "G") = some ((2 : Nat) * 1024 * 1024 * 1024 : Int) ∧
        convert_size "2" = some ((2 : Nat) : Int) ∧
        convert_size "2M" = some 2097152 ∧
        convert_size "100" = some 100 ∧
        convert_size "3G" = some 3221225472) :=
  ⟨by decide, by decide, by decide, c9_size_spec "2" 2 (by decide) (by decide) (by decide)⟩

/-- C10: a suffix character that is neither a digit nor one of `K`, `M`,
`G` is silently dropped — `convert_size` returns the bare integer prefix
instead of rejecting the input. -/
theorem c10_unknown_suffix_ignored (d : String) (n : Int) (c : Char)
    (hp : pyInt d = some n) (hc : c.isDigit = false)
    (hG : c ≠ 'G') (hM : c ≠ 'M') (hK : c ≠ 'K') :
    convert_size (d ++ String.mk [c]) = some n := by
  rw [convert_size_append_char d c hc, hp]
  simp [hG, hM, hK]

/-- Witness for `c10_unknown_suffix_ignored`: `"5T"` parses to 5. -/
theorem c10_unknown_suffix_ignored_witness :
    pyInt "5" = some 5 ∧ ('T').isDigit = false ∧
      ('T' ≠ 'G' ∧ 'T' ≠ 'M' ∧ 'T' ≠ 'K') ∧
      convert_size ("5" ++ String.mk ['T']) = some 5 :=
  ⟨by decide, by decide, ⟨by decide, by decide, by decide⟩,
    c10_unknown_suffix_ignored "5" 5 'T' (by decide) (by decide) (by decide) (by decide)
      (by decide)⟩

end Moosic
